import Mathlib

/-!
# Verification of the HustleX client schedule store and skill form

Shallow embedding of `src/client/src/hooks/useSchedules.js` (the schedule
store hook) and of `handleChange` in
`src/client/src/components/Skills/AddSkillModal.jsx`.

Embedding conventions:

* Calendar dates are modelled at day granularity as civil triples `Ymd`
  (year, month, day), evaluated in UTC.  The source stores dates as ISO
  timestamp strings and compares them by the date part of
  `new Date(x).toISOString()`; at day granularity that comparison is
  equality of `Ymd` values.  `new Date(...).getDay()` is modelled by
  `jsGetDay` via days-since-epoch arithmetic (1970-01-01 was a Thursday).
* Clock times (`startTime` / `endTime` of a schedule item) are
  hour/minute pairs; the source anchors both at `2000-01-01` and takes
  the millisecond difference, which equals the minute difference times
  60000.
* JavaScript falsy checks on optional strings are modelled with
  `Option`: a missing (`undefined`/`null`) or empty-string field is
  `none` / `some ""` where the distinction matters.
* Network requests are modelled by explicit server-response arguments
  (or server oracle functions).  An operation whose result and state are
  independent of the oracle issues no request.
* React state updates inside one operation are sequential in the source
  (single event-loop task per request completion), so each store
  operation is a pure function from the pre-state and the server
  responses to the post-state and the returned value.
-/

set_option maxHeartbeats 1000000

namespace HustleX

/-- A civil calendar date (UTC), day granularity. -/
structure Ymd where
  y : Nat
  m : Nat
  d : Nat
deriving DecidableEq, Repr

/-- Days since 1970-01-01 (Howard Hinnant's civil-from-days algorithm),
used to model JavaScript `Date.prototype.getDay` in UTC. -/
def daysFromCivil (dt : Ymd) : Int :=
  let y : Int := if dt.m ≤ 2 then (dt.y : Int) - 1 else (dt.y : Int)
  let era : Int := y.fdiv 400
  let yoe : Int := y - era * 400
  let mp : Int := ((dt.m : Int) + 9) % 12
  let doy : Int := (153 * mp + 2).fdiv 5 + (dt.d : Int) - 1
  let doe : Int := yoe * 365 + yoe.fdiv 4 - yoe.fdiv 100 + doy
  era * 146097 + doe - 719468

/-- `new Date(...).getDay()` in UTC: 0 = Sunday, ..., 6 = Saturday. -/
def jsGetDay (dt : Ymd) : Nat :=
  ((daysFromCivil dt + 4) % 7).toNat

/-- `formattedDate.getDay() % 6 === 0 ? "Weekend" : "Weekday"`
(used by both `copyScheduleItem` and `copySchedule`). -/
def dayTypeOf (dt : Ymd) : String :=
  if jsGetDay dt % 6 = 0 then "Weekend" else "Weekday"

/-- Left-pad a numeral to two digits. -/
def pad2 (n : Nat) : String :=
  if n < 10 then "0" ++ toString n else toString n

/-- Left-pad a numeral to four digits. -/
def pad4 (n : Nat) : String :=
  if n < 10 then "000" ++ toString n
  else if n < 100 then "00" ++ toString n
  else if n < 1000 then "0" ++ toString n
  else toString n

/-- `new Date(d).toISOString()` for a day-granularity date `d`
(midnight UTC): the canonical timestamp string sent on the wire. -/
def jsToISOTimestamp (dt : Ymd) : String :=
  pad4 dt.y ++ "-" ++ pad2 dt.m ++ "-" ++ pad2 dt.d ++ "T00:00:00.000Z"

/-- A time of day (`HH:MM`), as stored in an item's `startTime`/`endTime`. -/
structure ClockTime where
  hour : Nat
  minute : Nat
deriving DecidableEq, Repr

/-- Milliseconds since midnight of `new Date("2000-01-01T" + t)`,
relative to the common anchor (the anchor cancels in differences). -/
def msOfTime (t : ClockTime) : Int :=
  ((t.hour * 60 + t.minute) * 60000 : Nat)

/-- A schedule item (`ScheduleItem` embedded documents).  `sid` models the
Mongo `_id` field (`none` = absent, i.e. stripped before resubmission);
`category`, `startTime`, `endTime` are `none` when absent or empty
(JavaScript falsy). -/
structure ScheduleItem where
  sid : Option String
  category : Option String
  priority : String
  startTime : Option ClockTime
  endTime : Option ClockTime
  completed : Bool
deriving DecidableEq, Repr

/-- A schedule record as cached by the store.  `sid` models `_id`;
`date` is the calendar day of the stored timestamp; `items` is `none`
when the `items` field is absent. -/
structure Schedule where
  sid : String
  date : Ymd
  dayType : String
  status : String
  items : Option (List ScheduleItem)
deriving DecidableEq, Repr

/-- The stats snapshot shape set by `calculateStats` (trend fields are
always-zero placeholders in the source). -/
structure Stats where
  todayItems : Nat
  completionRate : ℚ
  totalHours : ℚ
  highPriorityTasks : Nat
  weeklyTrend : Nat
  completionTrend : Nat
  hoursChange : Nat
  priorityChange : Nat
  totalTasks : Nat
  currentStreak : Nat
  topCategory : String
  categoryCount : Nat
deriving DecidableEq, Repr

/-- `defaultStats` from the source. -/
def defaultStats : Stats :=
  { todayItems := 0, completionRate := 0, totalHours := 0,
    highPriorityTasks := 0, weeklyTrend := 0, completionTrend := 0,
    hoursChange := 0, priorityChange := 0, totalTasks := 0,
    currentStreak := 0, topCategory := "", categoryCount := 0 }

/-- `s.items ? s.items.length : 0`. -/
def itemsLen (s : Schedule) : Nat :=
  match s.items with
  | some its => its.length
  | none => 0

/-- `s.items ? s.items.filter(i => i.completed).length : 0`. -/
def completedLen (s : Schedule) : Nat :=
  match s.items with
  | some its => (its.filter (fun it => it.completed)).length
  | none => 0

/-- `s.items ? s.items.filter(i => i.priority === "High").length : 0`. -/
def highPriorityLen (s : Schedule) : Nat :=
  match s.items with
  | some its => (its.filter (fun it => it.priority = "High")).length
  | none => 0

/-- Hours contributed by one item inside the `totalHours` reduce:
`0` unless both times are present, else the millisecond difference over
`1000*60*60`. -/
def itemHours (it : ScheduleItem) : ℚ :=
  match it.startTime, it.endTime with
  | some st, some en => ((msOfTime en - msOfTime st : Int) : ℚ) / (1000 * 60 * 60)
  | _, _ => 0

/-- Inner `reduce` of the `totalHours` computation over one schedule's items. -/
def hoursFold (its : List ScheduleItem) : ℚ :=
  its.foldl
    (fun itemAcc it =>
      match it.startTime, it.endTime with
      | some st, some en =>
          itemAcc + ((msOfTime en - msOfTime st : Int) : ℚ) / (1000 * 60 * 60)
      | _, _ => itemAcc)
    0

/-- Insert-or-increment into the category distribution, preserving first
occurrence order (JavaScript object keys iterate in insertion order). -/
def bump : List (String × Nat) → String → List (String × Nat)
  | [], k => [(k, 1)]
  | (k', n) :: rest, k =>
      if k' = k then (k', n + 1) :: rest else (k', n) :: bump rest k

/-- The per-item step of the category distribution: skip a falsy
`category` (`if (!item.category) return`), else insert-or-increment. -/
def catStep (a : List (String × Nat)) (it : ScheduleItem) : List (String × Nat) :=
  match it.category with
  | none => a
  | some c => if c = "" then a else bump a c

/-- The per-schedule step of the category distribution: skip a schedule
with no `items` field, else fold its items. -/
def catSchedStep (acc : List (String × Nat)) (s : Schedule) : List (String × Nat) :=
  match s.items with
  | none => acc
  | some its => its.foldl catStep acc

/-- The `categories` object built by `calculateStats`: a count per
category key in first-occurrence order; items with a falsy `category`
are skipped. -/
def categoriesDist (l : List Schedule) : List (String × Nat) :=
  l.foldl catSchedStep []

/-- `Object.entries(categories).sort((a, b) => b[1] - a[1])[0]`: a stable
descending sort by count, whose head is the first entry attaining the
maximal count. -/
def topEntry : List (String × Nat) → Option (String × Nat)
  | [] => none
  | e :: rest => some (rest.foldl (fun best x => if x.2 > best.2 then x else best) e)

/-- `calculateStats` from `useSchedules.js` (lines 33-119), as a pure
function of today's calendar day and the argument collection.
`none` models a non-array argument. -/
def calculateStats (today : Ymd) (scheduleData : Option (List Schedule)) : Stats :=
  match scheduleData with
  | none => defaultStats
  | some l =>
    if l.isEmpty then defaultStats
    else
      let todaySchedules := l.filter (fun s => s.date = today)
      let todayItems := todaySchedules.foldl (fun acc s => acc + itemsLen s) 0
      let totalItems := l.foldl (fun acc s => acc + itemsLen s) 0
      let completedItems := l.foldl (fun acc s => acc + completedLen s) 0
      let completionRate : ℚ :=
        if totalItems > 0 then ((completedItems : ℚ) / (totalItems : ℚ)) * 100 else 0
      let totalHours : ℚ :=
        l.foldl
          (fun acc s =>
            match s.items with
            | none => acc
            | some its => acc + hoursFold its)
          0
      let highPriorityTasks := l.foldl (fun acc s => acc + highPriorityLen s) 0
      let cats := categoriesDist l
      let topCategory := (Option.map Prod.fst (topEntry cats)).getD ""
      { todayItems := todayItems, completionRate := completionRate,
        totalHours := totalHours, highPriorityTasks := highPriorityTasks,
        weeklyTrend := 0, completionTrend := 0, hoursChange := 0,
        priorityChange := 0, totalTasks := totalItems, currentStreak := 0,
        topCategory := topCategory, categoryCount := cats.length }

/-! ## Store state and operations -/

/-- The slice of the hook's state the verified claims are about. -/
structure StoreState where
  schedules : List Schedule
  stats : Stats
deriving DecidableEq, Repr

/-- A schedule creation payload (`POST /schedules` body).  `date` is the
calendar day of the normalized timestamp; `dateWire` is the exact string
placed in the body, `new Date(date).toISOString()`. -/
structure SchedulePayload where
  date : Ymd
  dateWire : String
  dayType : String
  status : String
  items : List ScheduleItem
deriving DecidableEq, Repr

/-- The argument of `createSchedule`: `date` is `none` when absent
(JavaScript falsy), `items` is `none` when the field is absent; the
other fields are passed through to the payload by the object spread. -/
structure CreateScheduleInput where
  date : Option Ymd
  dayType : String
  status : String
  items : Option (List ScheduleItem)
deriving DecidableEq, Repr

/-- The validation and date-normalization prefix of `createSchedule`
(lines 160-174): an error is thrown before any request when `date` is
absent or `items` is absent or empty; otherwise the formatted payload is
built with the date normalized to the canonical ISO timestamp. -/
def createScheduleStep (input : CreateScheduleInput) : Except String SchedulePayload :=
  match input.date with
  | none => .error "Date is required"
  | some d =>
    match input.items with
    | none => .error "At least one schedule item is required"
    | some its =>
      if its.isEmpty then .error "At least one schedule item is required"
      else
        .ok { date := d, dateWire := jsToISOTimestamp d,
              dayType := input.dayType, status := input.status, items := its }

/-- `fetchSchedules` (lines 122-153): on success the cache is replaced
wholesale and stats recomputed from the fetched list; on failure the
cache resets to empty and stats to the defaults. -/
def fetchSchedules (today : Ymd) (_st : StoreState)
    (resp : Except String (List Schedule)) : StoreState × Except String (List Schedule) :=
  match resp with
  | .error e => ({ schedules := [], stats := defaultStats }, .error e)
  | .ok l =>
      ({ schedules := l, stats := calculateStats today (some l) }, .ok l)

/-- `createSchedule` (lines 156-192), with the server modelled as an
oracle from the posted payload to its response.  A validation failure
returns before the oracle is consulted (no network request). -/
def createSchedule (today : Ymd) (st : StoreState) (input : CreateScheduleInput)
    (server : SchedulePayload → Except String Schedule) :
    StoreState × Except String Schedule :=
  match createScheduleStep input with
  | .error e => (st, .error e)
  | .ok payload =>
    match server payload with
    | .error e => (st, .error e)
    | .ok newSchedule =>
        ({ schedules := st.schedules ++ [newSchedule],
           stats := calculateStats today (some (st.schedules ++ [newSchedule])) },
         .ok newSchedule)

/-- `updateSchedule` (lines 195-233): requires a non-empty id, then
replaces the matching record by the server's response and recomputes
stats from the same mapped collection.  The update body is sent to the
server; only the response matters for the cache, so it is the `resp`
argument here. -/
def updateSchedule (today : Ymd) (st : StoreState) (id : String)
    (resp : Except String Schedule) : StoreState × Except String Schedule :=
  if id = "" then (st, .error "Schedule ID is required")
  else
    match resp with
    | .error e => (st, .error e)
    | .ok updated =>
        let l := st.schedules.map (fun s => if s.sid = id then updated else s)
        ({ schedules := l, stats := calculateStats today (some l) }, .ok updated)

/-- `deleteSchedule` (lines 236-262). -/
def deleteSchedule (today : Ymd) (st : StoreState) (id : String)
    (resp : Except String Unit) : StoreState × Except String Unit :=
  if id = "" then (st, .error "Schedule ID is required")
  else
    match resp with
    | .error e => (st, .error e)
    | .ok _ =>
        let l := st.schedules.filter (fun s => s.sid ≠ id)
        ({ schedules := l, stats := calculateStats today (some l) }, .ok ())

/-- Shared reconciliation of the three item-level operations
(`addScheduleItem`, `updateScheduleItem`, `deleteScheduleItem`): the
server returns the entire updated parent schedule, which replaces the
record with the given id, and stats are recomputed from the same mapped
collection. -/
def itemOpReconcile (today : Ymd) (st : StoreState) (scheduleId : String)
    (resp : Except String Schedule) : StoreState × Except String Schedule :=
  match resp with
  | .error e => (st, .error e)
  | .ok updated =>
      let l := st.schedules.map (fun s => if s.sid = scheduleId then updated else s)
      ({ schedules := l, stats := calculateStats today (some l) }, .ok updated)

/-- `addScheduleItem` (lines 265-301). -/
def addScheduleItem (today : Ymd) (st : StoreState) (scheduleId : String)
    (resp : Except String Schedule) : StoreState × Except String Schedule :=
  if scheduleId = "" then (st, .error "Schedule ID is required")
  else itemOpReconcile today st scheduleId resp

/-- `updateScheduleItem` (lines 304-339). -/
def updateScheduleItem (today : Ymd) (st : StoreState) (scheduleId itemId : String)
    (resp : Except String Schedule) : StoreState × Except String Schedule :=
  if scheduleId = "" ∨ itemId = "" then (st, .error "Schedule ID and Item ID are required")
  else itemOpReconcile today st scheduleId resp

/-- `deleteScheduleItem` (lines 342-376). -/
def deleteScheduleItem (today : Ymd) (st : StoreState) (scheduleId itemId : String)
    (resp : Except String Schedule) : StoreState × Except String Schedule :=
  if scheduleId = "" ∨ itemId = "" then (st, .error "Schedule ID and Item ID are required")
  else itemOpReconcile today st scheduleId resp

/-- The payload `copyScheduleItem` posts when no schedule exists for the
target date (lines 396-403). -/
def copyItemNewSchedulePayload (targetDate : Ymd) : SchedulePayload :=
  { date := targetDate, dateWire := jsToISOTimestamp targetDate,
    dayType := dayTypeOf targetDate, status := "Planned", items := [] }

/-- The item copy `copyScheduleItem` submits: the source item with the
`_id` field deleted. -/
def itemCopyOf (item : ScheduleItem) : ScheduleItem :=
  { item with sid := none }

/-- `copyScheduleItem` (lines 379-443).  `serverCreate` is the server's
response to the schedule-creation request, as a function of the posted
payload (consulted only when no cached schedule matches the target
date); `serverAddItem` is the response to posting the id-stripped item
copy onto the target schedule, as a function of the target schedule id
and the posted item.  Note that on success the source recomputes stats
from the stale closure `[...schedules]`, i.e. the pre-operation
collection (line 431). -/
def copyScheduleItem (today : Ymd) (st : StoreState) (item : ScheduleItem)
    (targetDate : Ymd)
    (serverCreate : SchedulePayload → Except String Schedule)
    (serverAddItem : String → ScheduleItem → Except String Schedule) :
    StoreState × Except String Schedule :=
  let go (ts : Schedule) (schedules1 : List Schedule) : StoreState × Except String Schedule :=
    match serverAddItem ts.sid (itemCopyOf item) with
    | .error e => ({ st with schedules := schedules1 }, .error e)
    | .ok updated =>
        ({ schedules := schedules1.map (fun s => if s.sid = ts.sid then updated else s),
           stats := calculateStats today (some st.schedules) },
         .ok updated)
  match st.schedules.find? (fun s => s.date = targetDate) with
  | some ts => go ts st.schedules
  | none =>
      match serverCreate (copyItemNewSchedulePayload targetDate) with
      | .error e => (st, .error e)
      | .ok ts => go ts (st.schedules ++ [ts])

/-- The new-schedule payload `copySchedule` builds from the source
schedule's items (lines 472-486): every item id-stripped and
`completed` forced to false, status reset to Planned, day type from the
target date's weekday. -/
def copySchedulePayload (its : List ScheduleItem) (targetDate : Ymd) : SchedulePayload :=
  { date := targetDate, dateWire := jsToISOTimestamp targetDate,
    dayType := dayTypeOf targetDate, status := "Planned",
    items := its.map (fun it => { it with sid := none, completed := false }) }

/-- `copySchedule` (lines 445-512).  When a schedule for the target date
exists it is deleted first (`deleteResp`); the new schedule payload is
then posted, `serverCreate` giving the server's response as a function
of it.  A source whose `items` field is absent throws a TypeError at
`sourceSchedule.items.map`, after the deletion has already been
applied. -/
def copySchedule (today : Ymd) (st : StoreState) (source : Schedule)
    (targetDate : Ymd) (deleteResp : Except String Unit)
    (serverCreate : SchedulePayload → Except String Schedule) :
    StoreState × Except String Schedule :=
  let go (schedules1 : List Schedule) : StoreState × Except String Schedule :=
    match source.items with
    | none => ({ st with schedules := schedules1 },
               .error "TypeError: sourceSchedule.items is undefined")
    | some its =>
        match serverCreate (copySchedulePayload its targetDate) with
        | .error e => ({ st with schedules := schedules1 }, .error e)
        | .ok newSchedule =>
            ({ schedules := schedules1 ++ [newSchedule],
               stats := calculateStats today (some (schedules1 ++ [newSchedule])) },
             .ok newSchedule)
  match st.schedules.find? (fun s => s.date = targetDate) with
  | none => go st.schedules
  | some existing =>
      match deleteResp with
      | .error e => (st, .error e)
      | .ok _ => go (st.schedules.filter (fun s => s.sid ≠ existing.sid))

/-! ## Spec-modelled server behavior

The REST backend of this repository is not among the provided source
files; its behavior at the endpoints the copy operations use is modelled
from the spec (§6 External interfaces). -/

/-- Modelled from the spec: the backend `POST /schedules` handler
(server code not under `src/`): "body=Schedule(without id) → created
Schedule".  The created schedule carries the submitted fields with a
fresh server-assigned identifier and fresh identifiers for the submitted
items. -/
def serverCreateSchedule (freshId : String) (itemIds : Nat → String)
    (p : SchedulePayload) : Schedule :=
  { sid := freshId, date := p.date, dayType := p.dayType, status := p.status,
    items := some ((p.items.enum).map
      (fun x => { x.2 with sid := some (itemIds x.1) })) }

/-- Modelled from the spec: the backend `POST /schedules/{id}/items`
handler (server code not under `src/`): "body=Item(without id) → full
updated Schedule".  The returned parent schedule has the submitted item
appended with a fresh server-assigned identifier. -/
def serverAddItemToSchedule (s : Schedule) (it : ScheduleItem)
    (freshItemId : String) : Schedule :=
  { s with items := some (s.items.getD [] ++ [{ it with sid := some freshItemId }]) }

/-! ## Category fetching -/

/-- A category object (`{name: ...}`) as returned by the backend. -/
structure CategoryObj where
  name : String
deriving DecidableEq, Repr

/-- The three response shapes `fetchCategories` accepts, plus a shape
mismatch and a request failure. -/
inductive CategoriesResponse where
  | arr (cs : List CategoryObj)
  | dataArr (cs : List CategoryObj)
  | catsArr (names : List String)
  | other
  | failure (msg : String)
deriving DecidableEq, Repr

/-- The category-related slice of the hook's state. -/
structure CategoriesState where
  categories : List String
  isFetchingCategories : Bool
deriving DecidableEq, Repr

/-- The fallback list hard-coded in `fetchCategories`. -/
def defaultCategories : List String :=
  ["DSA", "System Design", "Development", "Learning", "Problem Solving", "Other"]

/-- `fetchCategories` (lines 515-572): returns `[]` when unauthenticated,
the cached list when a fetch is already in flight; otherwise extracts
names from one of the three accepted shapes, or substitutes the default
list on shape mismatch or failure, always clearing the in-flight flag. -/
def fetchCategories (isAuthenticated : Bool) (st : CategoriesState)
    (resp : CategoriesResponse) : List String × CategoriesState :=
  if !isAuthenticated then ([], st)
  else if st.isFetchingCategories then (st.categories, st)
  else
    let extracted : List String :=
      match resp with
      | .arr cs => cs.map (fun c => c.name)
      | .dataArr cs => cs.map (fun c => c.name)
      | .catsArr names => names
      | .other => defaultCategories
      | .failure _ => defaultCategories
    (extracted, { categories := extracted, isFetchingCategories := false })

/-! ## Skill form (`AddSkillModal.jsx`) -/

/-- The form record owned by the skill modal. -/
structure SkillFormData where
  name : String
  category : String
  status : String
  progress : Int
  description : String
  priority : String
deriving DecidableEq, Repr

/-- Digits of the longest leading digit run, accumulated left to right. -/
def takeDigits : List Char → Nat → Nat
  | [], acc => acc
  | c :: rest, acc =>
      if c.isDigit then takeDigits rest (acc * 10 + (c.toNat - 48)) else acc

/-- The longest leading digit run as a number, or `none` if the first
character is not a digit. -/
def parseNatPrefix : List Char → Option Nat
  | [] => none
  | c :: rest => if c.isDigit then some (takeDigits (c :: rest) 0) else none

/-- A character JavaScript `parseInt` skips as leading whitespace. -/
def isJsSpace (c : Char) : Bool :=
  c = ' ' ∨ c = '\t' ∨ c = '\n' ∨ c = '\r'

/-- JavaScript `parseInt(value)` (radix 10): skip leading whitespace,
optional sign, then the longest leading digit run; `none` models NaN. -/
def jsParseInt (s : String) : Option Int :=
  match s.toList.dropWhile isJsSpace with
  | '-' :: rest => (parseNatPrefix rest).map (fun n => -(n : Int))
  | '+' :: rest => (parseNatPrefix rest).map (fun n => (n : Int))
  | cs => (parseNatPrefix cs).map (fun n => (n : Int))

/-- Write one named form field (`{...formData, [name]: value}`); an
unrecognized name would add a property the form never reads, so it
leaves the record unchanged in this model. -/
def setField (fd : SkillFormData) (nm v : String) : SkillFormData :=
  if nm = "name" then { fd with name := v }
  else if nm = "category" then { fd with category := v }
  else if nm = "status" then { fd with status := v }
  else if nm = "description" then { fd with description := v }
  else if nm = "priority" then { fd with priority := v }
  else fd

/-- `handleChange` (AddSkillModal.jsx lines 35-50): a `progress` change
stores `Math.min(100, Math.max(0, parseInt(value) || 0))`; any other
field is written as-is; and a change of `status` to `"completed"`
additionally forces `progress` to 100. -/
def handleChange (fd : SkillFormData) (nm v : String) : SkillFormData :=
  let fd1 :=
    if nm = "progress" then
      { fd with progress := min 100 (max 0 ((jsParseInt v).getD 0)) }
    else setField fd nm v
  if nm = "status" ∧ v = "completed" then { fd1 with progress := 100 } else fd1

/-! ## Concrete records used by the witnesses and counterexamples -/

/-- A completed high-priority 09:00-10:30 DSA item. -/
def witItem1 : ScheduleItem :=
  { sid := some "i1", category := some "DSA", priority := "High",
    startTime := some ⟨9, 0⟩, endTime := some ⟨10, 30⟩, completed := true }

/-- An uncompleted low-priority item with no times and no category. -/
def witItem2 : ScheduleItem :=
  { sid := some "i2", category := none, priority := "Low",
    startTime := none, endTime := none, completed := false }

/-- A schedule on Monday 2026-01-05 holding the two witness items. -/
def witSchedule : Schedule :=
  { sid := "a", date := ⟨2026, 1, 5⟩, dayType := "Weekday", status := "Planned",
    items := some [witItem1, witItem2] }

/-- A schedule on Tuesday 2026-01-06 with an empty item list. -/
def witEmptySchedule : Schedule :=
  { sid := "b", date := ⟨2026, 1, 6⟩, dayType := "Weekday", status := "Planned",
    items := some [] }

/-! ## Flattened views of the collection, for stating the stats claims -/

/-- All items across a schedule collection, in order; a schedule whose
`items` field is absent contributes none. -/
def allItems (sd : Option (List Schedule)) : List ScheduleItem :=
  ((sd.getD []).map (fun s => s.items.getD [])).join

/-- Total item count across the collection. -/
def specTotalCount (sd : Option (List Schedule)) : Nat :=
  (allItems sd).length

/-- Count of items with `completed = true` across the collection. -/
def specCompletedCount (sd : Option (List Schedule)) : Nat :=
  ((allItems sd).filter (fun it => it.completed)).length

/-- Hours contributed by one schedule inside the `totalHours` reduce. -/
def scheduleHours (s : Schedule) : ℚ :=
  match s.items with
  | none => 0
  | some its => hoursFold its

/-- The main branch of `calculateStats` with every fold written as a
flat sum: a normal form used to reason field-wise. -/
def statsOf (today : Ymd) (l : List Schedule) : Stats :=
  { todayItems := ((l.filter (fun s => s.date = today)).map itemsLen).sum,
    completionRate :=
      if (l.map itemsLen).sum > 0
      then (((l.map completedLen).sum : ℚ) / ((l.map itemsLen).sum : ℚ)) * 100
      else 0,
    totalHours := (l.map scheduleHours).sum,
    highPriorityTasks := (l.map highPriorityLen).sum,
    weeklyTrend := 0, completionTrend := 0, hoursChange := 0, priorityChange := 0,
    totalTasks := (l.map itemsLen).sum,
    currentStreak := 0,
    topCategory := (Option.map Prod.fst (topEntry (categoriesDist l))).getD "",
    categoryCount := (categoriesDist l).length }

/-! ## Bridging lemmas: the source's folds equal flat sums -/

theorem foldl_add_map {M : Type} [AddCommMonoid M] {α : Type} (g : α → M) :
    ∀ (l : List α) (a : M), l.foldl (fun acc x => acc + g x) a = a + (l.map g).sum := by
  intro l
  induction l with
  | nil => intro a; simp
  | cons x xs ih => intro a; simp [ih, add_assoc]

theorem itemsLen_eq : itemsLen = fun s => (s.items.getD []).length := by
  funext s
  cases h : s.items <;> simp [itemsLen, h]

theorem completedLen_eq :
    completedLen = fun s => ((s.items.getD []).filter (fun it => it.completed)).length := by
  funext s
  cases h : s.items <;> simp [completedLen, h]

theorem join_filter_length (g : Schedule → List ScheduleItem) (p : ScheduleItem → Bool)
    (l : List Schedule) :
    (((l.map g).join).filter p).length
      = (l.map (fun s => ((g s).filter p).length)).sum := by
  induction l with
  | nil => rfl
  | cons s rest ih => simp [List.filter_append, ih, Function.comp_def]

theorem join_map_sum (g : Schedule → List ScheduleItem) (f : ScheduleItem → ℚ)
    (l : List Schedule) :
    (((l.map g).join).map f).sum = (l.map (fun s => ((g s).map f).sum)).sum := by
  induction l with
  | nil => rfl
  | cons s rest ih => simp [ih, Function.comp_def]

theorem specTotalCount_eq (l : List Schedule) :
    specTotalCount (some l) = (l.map itemsLen).sum := by
  rw [itemsLen_eq]
  simp only [specTotalCount, allItems, Option.getD_some]
  induction l with
  | nil => rfl
  | cons s rest ih => simp [ih]

theorem specCompletedCount_eq (l : List Schedule) :
    specCompletedCount (some l) = (l.map completedLen).sum := by
  rw [completedLen_eq]
  simp only [specCompletedCount, allItems, Option.getD_some]
  rw [join_filter_length]

theorem hoursFold_eq (its : List ScheduleItem) :
    hoursFold its = (its.map itemHours).sum := by
  have h : ∀ (l : List ScheduleItem) (a : ℚ),
      l.foldl
        (fun itemAcc it =>
          match it.startTime, it.endTime with
          | some st, some en =>
              itemAcc + ((msOfTime en - msOfTime st : Int) : ℚ) / (1000 * 60 * 60)
          | _, _ => itemAcc)
        a = a + (l.map itemHours).sum := by
    intro l
    induction l with
    | nil => intro a; simp
    | cons it rest ih =>
        intro a
        have harm : ∀ b : ℚ,
            (match it.startTime, it.endTime with
              | some st, some en =>
                  b + ((msOfTime en - msOfTime st : Int) : ℚ) / (1000 * 60 * 60)
              | _, _ => b) = b + itemHours it := by
          intro b
          cases hs : it.startTime <;> cases he : it.endTime <;>
            simp [itemHours, hs, he]
        simp only [List.foldl_cons, harm, ih, List.map_cons, List.sum_cons]
        ring
  simpa [hoursFold] using h its 0

theorem totalHours_fold_eq (l : List Schedule) :
    l.foldl
      (fun acc s =>
        match s.items with
        | none => acc
        | some its => acc + hoursFold its)
      (0 : ℚ) = (l.map scheduleHours).sum := by
  have h : (fun (acc : ℚ) (s : Schedule) =>
      match s.items with
      | none => acc
      | some its => acc + hoursFold its) = fun acc s => acc + scheduleHours s := by
    funext acc s
    cases hs : s.items <;> simp [scheduleHours, hs]
  rw [h, foldl_add_map]
  simp

theorem scheduleHours_eq :
    scheduleHours = fun s => ((s.items.getD []).map itemHours).sum := by
  funext s
  cases h : s.items <;> simp [scheduleHours, h, hoursFold_eq]

/-- The completion-rate component of `calculateStats` on a nonempty
collection, with the source's folds replaced by flat sums. -/
theorem calculateStats_completionRate (today : Ymd) (l : List Schedule)
    (hne : ¬ l.isEmpty) :
    (calculateStats today (some l)).completionRate =
      if (l.map itemsLen).sum > 0
      then (((l.map completedLen).sum : ℚ) / ((l.map itemsLen).sum : ℚ)) * 100
      else 0 := by
  simp only [calculateStats, if_neg hne, foldl_add_map, zero_add]

/-- The total-hours component of `calculateStats` on a nonempty
collection, with the source's folds replaced by flat sums. -/
theorem calculateStats_totalHours (today : Ymd) (l : List Schedule)
    (hne : ¬ l.isEmpty) :
    (calculateStats today (some l)).totalHours = (l.map scheduleHours).sum := by
  simp only [calculateStats, if_neg hne]
  rw [totalHours_fold_eq]

/-- In a list where exactly one position satisfies `p`, any two members
satisfying `p` coincide. -/
theorem countP_one_unique {α : Type} {p : α → Bool} :
    ∀ {l : List α}, l.countP p = 1 →
      ∀ {x y : α}, x ∈ l → p x = true → y ∈ l → p y = true → x = y := by
  intro l
  induction l with
  | nil => intro h; simp at h
  | cons a t ih =>
      intro h x y hx hpx hy hpy
      rw [List.countP_cons] at h
      by_cases hpa : p a = true
      · rw [if_pos hpa] at h
        have ht : t.countP p = 0 := by omega
        have hnone := List.countP_eq_zero.mp ht
        have hxa : x = a := by
          rcases List.mem_cons.mp hx with h' | h'
          · exact h'
          · exact absurd hpx (hnone x h')
        have hya : y = a := by
          rcases List.mem_cons.mp hy with h' | h'
          · exact h'
          · exact absurd hpy (hnone y h')
        rw [hxa, hya]
      · rw [if_neg hpa] at h
        have hxt : x ∈ t := by
          rcases List.mem_cons.mp hx with h' | h'
          · exact absurd (h' ▸ hpx) hpa
          · exact h'
        have hyt : y ∈ t := by
          rcases List.mem_cons.mp hy with h' | h'
          · exact absurd (h' ▸ hpy) hpa
          · exact h'
        exact ih (by simpa using h) hxt hpx hyt hpy

/-- Replacing the schedule whose id is not present in a list leaves the
list unchanged. -/
theorem map_replace_fresh (l : List Schedule) (fid : String)
    (h : fid ∉ l.map (fun s => s.sid)) (upd : Schedule) :
    l.map (fun s => if s.sid = fid then upd else s) = l := by
  have := List.map_congr_left (l := l)
    (f := fun s => if s.sid = fid then upd else s) (g := id)
    (by
      intro a ha
      have : a.sid ≠ fid := by
        intro hc
        exact h (hc ▸ List.mem_map_of_mem (fun s => s.sid) ha)
      simp [this])
  simpa using this

/-- `calculateStats` on an array argument is `statsOf` (also for the
empty list, where both sides are the default snapshot). -/
theorem calculateStats_some (today : Ymd) (l : List Schedule) :
    calculateStats today (some l) = statsOf today l := by
  by_cases hne : l.isEmpty
  · match l, hne with
    | [], _ => rfl
  · simp only [calculateStats, statsOf, if_neg hne, foldl_add_map, zero_add,
      totalHours_fold_eq]

/-! ## Claim theorems -/

/-- C1: for every schedule collection with at least one item across its
schedules, the `completionRate` computed by `calculateStats` equals
100 times the number of items with `completed = true` divided by the
total item count; when the total item count is 0 (including when the
collection is empty or not an array, i.e. `none`), `completionRate`
equals 0. -/
theorem completionRate_matches_counts (today : Ymd) (sd : Option (List Schedule)) :
    (0 < specTotalCount sd →
      (calculateStats today sd).completionRate
        = 100 * (specCompletedCount sd : ℚ) / (specTotalCount sd : ℚ))
    ∧ (specTotalCount sd = 0 → (calculateStats today sd).completionRate = 0) := by
  constructor
  · intro h
    match sd with
    | none => simp [specTotalCount, allItems] at h
    | some l =>
      have hne : ¬ l.isEmpty := by
        cases l with
        | nil => simp [specTotalCount, allItems] at h
        | cons s rest => simp
      rw [specTotalCount_eq] at h ⊢
      rw [specCompletedCount_eq]
      rw [calculateStats_completionRate today l hne, if_pos h]
      rw [div_mul_eq_mul_div, mul_comm]
  · intro h
    match sd with
    | none => rfl
    | some l =>
      by_cases hne : l.isEmpty
      · match l, hne with
        | [], _ => rfl
      · rw [specTotalCount_eq] at h
        rw [calculateStats_completionRate today l hne, if_neg (by omega)]

/-- Witness for C1 at a concrete two-item collection (one completed). -/
theorem completionRate_matches_counts_witness :
    0 < specTotalCount (some [witSchedule])
    ∧ (calculateStats ⟨2026, 1, 5⟩ (some [witSchedule])).completionRate
        = 100 * (1 : ℚ) / (2 : ℚ) := by
  refine ⟨by decide, ?_⟩
  have h := (completionRate_matches_counts ⟨2026, 1, 5⟩ (some [witSchedule])).1 (by decide)
  rw [h]
  norm_num [specTotalCount, specCompletedCount, allItems, witSchedule, witItem1, witItem2]

/-- C7: for every authenticated call, `createSchedule` raises a local
validation error without issuing any network request (the result is
independent of the server and the cache is unchanged) when the input
lacks a date, and separately when the `items` field is absent or an
empty sequence; in all other cases the posted payload carries the date
normalized to the canonical ISO timestamp format. -/
theorem createSchedule_validation (today : Ymd) (st : StoreState)
    (input : CreateScheduleInput) :
    (input.date = none →
      ∀ server, createSchedule today st input server
        = (st, .error "Date is required"))
    ∧ (input.date ≠ none → (input.items = none ∨ input.items = some []) →
      ∀ server, createSchedule today st input server
        = (st, .error "At least one schedule item is required"))
    ∧ (∀ d its, input.date = some d → input.items = some its → its ≠ [] →
      createScheduleStep input
        = .ok { date := d, dateWire := jsToISOTimestamp d,
                dayType := input.dayType, status := input.status, items := its }) := by
  refine ⟨?_, ?_, ?_⟩
  · intro hd server
    simp [createSchedule, createScheduleStep, hd]
  · intro hd hits server
    match hdate : input.date, hd with
    | some d, _ =>
      rcases hits with h | h <;>
        simp [createSchedule, createScheduleStep, hdate, h]
  · intro d its hd hits hne
    simp [createScheduleStep, hd, hits, hne]

/-- Witness for C7: a missing date is rejected with no cache change and
no server consultation, and a valid input's payload carries the
canonical timestamp. -/
theorem createSchedule_validation_witness :
    createSchedule ⟨2026, 1, 5⟩ ⟨[], defaultStats⟩
        ⟨none, "Weekday", "Planned", some [witItem2]⟩ (fun _ => .error "x")
      = (⟨[], defaultStats⟩, .error "Date is required")
    ∧ createScheduleStep ⟨some ⟨2026, 1, 5⟩, "Weekday", "Planned", some [witItem2]⟩
      = .ok { date := ⟨2026, 1, 5⟩, dateWire := "2026-01-05T00:00:00.000Z",
              dayType := "Weekday", status := "Planned", items := [witItem2] } := by
  constructor
  · exact (createSchedule_validation ⟨2026, 1, 5⟩ ⟨[], defaultStats⟩
      ⟨none, "Weekday", "Planned", some [witItem2]⟩).1 rfl (fun _ => .error "x")
  · have h := (createSchedule_validation ⟨2026, 1, 5⟩ ⟨[], defaultStats⟩
      ⟨some ⟨2026, 1, 5⟩, "Weekday", "Planned", some [witItem2]⟩).2.2
      ⟨2026, 1, 5⟩ [witItem2] rfl rfl (by simp)
    rw [h]
    rfl

/-- C9: `handleChange` with `name="status", value="completed"` forces
`progress` to 100 regardless of its prior value; with `name="progress"`
it clamps the parsed integer into [0, 100]: "150" yields 100, "-5"
yields 0, and a non-numeric value (one `parseInt` cannot parse) yields
0. -/
theorem handleChange_spec (fd : SkillFormData) :
    ((handleChange fd "status" "completed").progress = 100)
    ∧ ((handleChange fd "progress" "150").progress = 100)
    ∧ ((handleChange fd "progress" "-5").progress = 0)
    ∧ (∀ v, jsParseInt v = none → (handleChange fd "progress" v).progress = 0)
    ∧ (∀ v, 0 ≤ (handleChange fd "progress" v).progress
        ∧ (handleChange fd "progress" v).progress ≤ 100) := by
  refine ⟨?_, ?_, ?_, ?_, ?_⟩
  · simp [handleChange, setField]
  · have h : jsParseInt "150" = some 150 := by decide
    simp [handleChange, h]
  · have h : jsParseInt "-5" = some (-5) := by decide
    simp [handleChange, h]
  · intro v hv
    simp [handleChange, hv]
  · intro v
    simp only [handleChange]
    refine ⟨?_, ?_⟩ <;> simp

/-- Witness for C9 at a concrete prior form state and the non-numeric
value "abc". -/
theorem handleChange_spec_witness :
    (handleChange ⟨"React", "DSA", "upcoming", 37, "", "medium"⟩
        "status" "completed").progress = 100
    ∧ (handleChange ⟨"React", "DSA", "upcoming", 37, "", "medium"⟩
        "progress" "abc").progress = 0 := by
  refine ⟨(handleChange_spec ⟨"React", "DSA", "upcoming", 37, "", "medium"⟩).1, ?_⟩
  exact (handleChange_spec ⟨"React", "DSA", "upcoming", 37, "", "medium"⟩).2.2.2.1
    "abc" (by decide)

/-- C8: for every authenticated call that actually issues the request
(no fetch already in flight), a failed request or an unrecognized
response shape makes `fetchCategories` return and store exactly the
six-element default list; the in-flight flag is false after the call in
every case; and each accepted shape yields the flat list of names
extracted from it. -/
theorem fetchCategories_fallback (st : CategoriesState) (resp : CategoriesResponse)
    (hidle : st.isFetchingCategories = false) :
    ((resp = .other ∨ ∃ m, resp = .failure m) →
      fetchCategories true st resp
        = (["DSA", "System Design", "Development", "Learning", "Problem Solving", "Other"],
           { categories := ["DSA", "System Design", "Development", "Learning",
                            "Problem Solving", "Other"],
             isFetchingCategories := false }))
    ∧ ((fetchCategories true st resp).2.isFetchingCategories = false)
    ∧ (∀ cs, resp = .arr cs →
        (fetchCategories true st resp).1 = cs.map (fun c => c.name))
    ∧ (∀ cs, resp = .dataArr cs →
        (fetchCategories true st resp).1 = cs.map (fun c => c.name))
    ∧ (∀ names, resp = .catsArr names → (fetchCategories true st resp).1 = names) := by
  refine ⟨?_, ?_, ?_, ?_, ?_⟩
  · rintro (h | ⟨m, h⟩) <;> simp [fetchCategories, hidle, h, defaultCategories]
  · cases resp <;> simp [fetchCategories, hidle]
  · intro cs h; simp [fetchCategories, hidle, h]
  · intro cs h; simp [fetchCategories, hidle, h]
  · intro names h; simp [fetchCategories, hidle, h]

/-- Witness for C8: a failed request from the idle state returns and
stores the default list with the flag cleared. -/
theorem fetchCategories_fallback_witness :
    fetchCategories true ⟨[], false⟩ (.failure "Network Error")
      = (["DSA", "System Design", "Development", "Learning", "Problem Solving", "Other"],
         { categories := ["DSA", "System Design", "Development", "Learning",
                          "Problem Solving", "Other"],
           isFetchingCategories := false })
    ∧ (fetchCategories true ⟨["DSA"], false⟩ (.catsArr ["A", "B"])).1 = ["A", "B"] := by
  constructor
  · exact (fetchCategories_fallback ⟨[], false⟩ (.failure "Network Error") rfl).1
      (Or.inr ⟨"Network Error", rfl⟩)
  · exact (fetchCategories_fallback ⟨["DSA"], false⟩ (.catsArr ["A", "B"]) rfl).2.2.2.2
      ["A", "B"] rfl

/-- C3: from a state holding exactly one schedule for the target date, a
successful `copySchedule` leaves exactly one schedule for the target
date in the cache and the pre-existing one is absent; the submitted new
schedule has as many items as the source, each with `completed = false`
and no retained item identifier; its status is Planned; and its dayType
is Weekend exactly when the target date's day-of-week modulo 6 is 0.
The backend's response is the spec-modelled created schedule with a
fresh identifier `fid`. -/
theorem copySchedule_overwrite_spec (today : Ymd) (st : StoreState)
    (source : Schedule) (targetDate : Ymd) (its : List ScheduleItem)
    (ex : Schedule) (fid : String) (itemIds : Nat → String)
    (serverCreate : SchedulePayload → Except String Schedule)
    (hsrc : source.items = some its)
    (hfind : st.schedules.find? (fun s => s.date = targetDate) = some ex)
    (huniq : st.schedules.countP (fun s => s.date = targetDate) = 1)
    (hserver : serverCreate (copySchedulePayload its targetDate)
      = .ok (serverCreateSchedule fid itemIds (copySchedulePayload its targetDate)))
    (hfresh : fid ∉ st.schedules.map (fun s => s.sid)) :
    ((copySchedule today st source targetDate (.ok ()) serverCreate).1.schedules.countP
        (fun s => s.date = targetDate) = 1)
    ∧ ex ∉ (copySchedule today st source targetDate (.ok ()) serverCreate).1.schedules
    ∧ (copySchedulePayload its targetDate).items.length = its.length
    ∧ (∀ i ∈ (copySchedulePayload its targetDate).items,
        i.completed = false ∧ i.sid = none)
    ∧ (copySchedulePayload its targetDate).status = "Planned"
    ∧ ((copySchedulePayload its targetDate).dayType = "Weekend"
        ↔ jsGetDay targetDate % 6 = 0) := by
  have hexmem : ex ∈ st.schedules := List.mem_of_find?_eq_some hfind
  have hexp := List.find?_some hfind
  have hsch : (copySchedule today st source targetDate (.ok ()) serverCreate).1.schedules
      = st.schedules.filter (fun s => s.sid ≠ ex.sid)
        ++ [serverCreateSchedule fid itemIds (copySchedulePayload its targetDate)] := by
    simp [copySchedule, hfind, hsrc, hserver]
  refine ⟨?_, ?_, ?_, ?_, rfl, ?_⟩
  · rw [hsch, List.countP_append]
    have hf0 : (st.schedules.filter (fun s => s.sid ≠ ex.sid)).countP
        (fun s => s.date = targetDate) = 0 := by
      rw [List.countP_eq_zero]
      intro a ha hpa
      have hmem := (List.mem_filter.mp ha).1
      have hside := (List.mem_filter.mp ha).2
      have haex : a = ex := countP_one_unique huniq hmem hpa hexmem hexp
      rw [haex] at hside
      simp at hside
    rw [hf0]
    have hped : (serverCreateSchedule fid itemIds (copySchedulePayload its targetDate)).date
        = targetDate := rfl
    simp [List.countP_cons, hped]
  · rw [hsch]
    intro hmem
    rcases List.mem_append.mp hmem with h | h
    · have hcond := (List.mem_filter.mp h).2
      simp at hcond
    · simp only [List.mem_singleton] at h
      have hsid : ex.sid = fid := by rw [h]; rfl
      exact hfresh (hsid ▸ List.mem_map_of_mem (fun s => s.sid) hexmem)
  · simp [copySchedulePayload]
  · intro i hi
    simp only [copySchedulePayload, List.mem_map] at hi
    obtain ⟨it, hit, rfl⟩ := hi
    exact ⟨rfl, rfl⟩
  · show dayTypeOf targetDate = "Weekend" ↔ jsGetDay targetDate % 6 = 0
    by_cases h : jsGetDay targetDate % 6 = 0 <;> simp [dayTypeOf, h]

/-- Witness for C3: copying a two-item schedule onto its own date with a
fresh server id "b2". -/
theorem copySchedule_overwrite_spec_witness :
    ((copySchedule ⟨2026, 1, 5⟩ ⟨[witSchedule], defaultStats⟩ witSchedule ⟨2026, 1, 5⟩
        (.ok ())
        (fun p => .ok (serverCreateSchedule "b2" (fun n => toString n) p))).1.schedules.countP
      (fun s => s.date = (⟨2026, 1, 5⟩ : Ymd)) = 1)
    ∧ witSchedule ∉ (copySchedule ⟨2026, 1, 5⟩ ⟨[witSchedule], defaultStats⟩ witSchedule
        ⟨2026, 1, 5⟩ (.ok ())
        (fun p => .ok (serverCreateSchedule "b2" (fun n => toString n) p))).1.schedules := by
  have h := copySchedule_overwrite_spec ⟨2026, 1, 5⟩ ⟨[witSchedule], defaultStats⟩
    witSchedule ⟨2026, 1, 5⟩ [witItem1, witItem2] witSchedule "b2" (fun n => toString n)
    (fun p => .ok (serverCreateSchedule "b2" (fun n => toString n) p))
    rfl (by decide) (by decide) rfl (by decide)
  exact ⟨h.1, h.2.1⟩

/-- C4: from a state with no cached schedule on the target date, a
successful `copyScheduleItem` appends exactly one new schedule: the
spec-modelled server's creation response updated by the posted item.
That schedule is the only one on the target date, its dayType is Weekend
exactly when the target date's day-of-week modulo 6 is 0, the posted
item copy carries no identifier, and after the call the schedule holds
exactly one item: the source item with the fresh server-assigned id. -/
theorem copyScheduleItem_new_schedule_spec (today : Ymd) (st : StoreState)
    (item : ScheduleItem) (targetDate : Ymd) (fid fiid : String) (itemIds : Nat → String)
    (serverCreate : SchedulePayload → Except String Schedule)
    (serverAddItem : String → ScheduleItem → Except String Schedule)
    (hnomatch : ∀ s ∈ st.schedules, ¬ s.date = targetDate)
    (hserverC : serverCreate (copyItemNewSchedulePayload targetDate)
      = .ok (serverCreateSchedule fid itemIds (copyItemNewSchedulePayload targetDate)))
    (hserverA : serverAddItem fid (itemCopyOf item)
      = .ok (serverAddItemToSchedule
          (serverCreateSchedule fid itemIds (copyItemNewSchedulePayload targetDate))
          (itemCopyOf item) fiid))
    (hfresh : fid ∉ st.schedules.map (fun s => s.sid)) :
    ((copyScheduleItem today st item targetDate serverCreate serverAddItem).1.schedules
      = st.schedules
        ++ [serverAddItemToSchedule
              (serverCreateSchedule fid itemIds (copyItemNewSchedulePayload targetDate))
              (itemCopyOf item) fiid])
    ∧ ((copyScheduleItem today st item targetDate serverCreate serverAddItem).1.schedules.countP
        (fun s => s.date = targetDate) = 1)
    ∧ (serverAddItemToSchedule
        (serverCreateSchedule fid itemIds (copyItemNewSchedulePayload targetDate))
        (itemCopyOf item) fiid).date = targetDate
    ∧ ((serverAddItemToSchedule
        (serverCreateSchedule fid itemIds (copyItemNewSchedulePayload targetDate))
        (itemCopyOf item) fiid).dayType = "Weekend" ↔ jsGetDay targetDate % 6 = 0)
    ∧ (itemCopyOf item).sid = none
    ∧ (serverAddItemToSchedule
        (serverCreateSchedule fid itemIds (copyItemNewSchedulePayload targetDate))
        (itemCopyOf item) fiid).items = some [{ item with sid := some fiid }] := by
  have hfindn : st.schedules.find? (fun s => s.date = targetDate) = none :=
    List.find?_eq_none.mpr (by intro x hx; simpa using hnomatch x hx)
  have hsch : (copyScheduleItem today st item targetDate serverCreate serverAddItem).1.schedules
      = (st.schedules
          ++ [serverCreateSchedule fid itemIds (copyItemNewSchedulePayload targetDate)]).map
        (fun s => if s.sid = fid then
            serverAddItemToSchedule
              (serverCreateSchedule fid itemIds (copyItemNewSchedulePayload targetDate))
              (itemCopyOf item) fiid
          else s) := by
    have hsid : (serverCreateSchedule fid itemIds
        (copyItemNewSchedulePayload targetDate)).sid = fid := rfl
    simp [copyScheduleItem, hfindn, hserverC, hsid, hserverA]
  have happ : (copyScheduleItem today st item targetDate serverCreate serverAddItem).1.schedules
      = st.schedules
        ++ [serverAddItemToSchedule
              (serverCreateSchedule fid itemIds (copyItemNewSchedulePayload targetDate))
              (itemCopyOf item) fiid] := by
    rw [hsch, List.map_append, map_replace_fresh st.schedules fid hfresh]
    have hsid : (serverCreateSchedule fid itemIds
        (copyItemNewSchedulePayload targetDate)).sid = fid := rfl
    simp [hsid]
  refine ⟨happ, ?_, rfl, ?_, rfl, rfl⟩
  · rw [happ, List.countP_append]
    have h0 : st.schedules.countP (fun s => s.date = targetDate) = 0 := by
      rw [List.countP_eq_zero]
      intro a ha
      simpa using hnomatch a ha
    rw [h0]
    have hped : (serverAddItemToSchedule
        (serverCreateSchedule fid itemIds (copyItemNewSchedulePayload targetDate))
        (itemCopyOf item) fiid).date = targetDate := rfl
    simp [List.countP_cons, hped]
  · show dayTypeOf targetDate = "Weekend" ↔ jsGetDay targetDate % 6 = 0
    by_cases h : jsGetDay targetDate % 6 = 0 <;> simp [dayTypeOf, h]

/-- Witness for C4: copying an item to the empty cache for Saturday
2026-01-10. -/
theorem copyScheduleItem_new_schedule_spec_witness :
    ((copyScheduleItem ⟨2026, 1, 5⟩ ⟨[], defaultStats⟩ witItem1 ⟨2026, 1, 10⟩
        (fun p => .ok (serverCreateSchedule "c7" (fun n => toString n) p))
        (fun _ it => .ok (serverAddItemToSchedule
          (serverCreateSchedule "c7" (fun n => toString n)
            (copyItemNewSchedulePayload ⟨2026, 1, 10⟩)) it "c8"))).1.schedules.countP
      (fun s => s.date = (⟨2026, 1, 10⟩ : Ymd)) = 1)
    ∧ (serverAddItemToSchedule
        (serverCreateSchedule "c7" (fun n => toString n)
          (copyItemNewSchedulePayload ⟨2026, 1, 10⟩))
        (itemCopyOf witItem1) "c8").items = some [{ witItem1 with sid := some "c8" }] := by
  have h := copyScheduleItem_new_schedule_spec ⟨2026, 1, 5⟩ ⟨[], defaultStats⟩ witItem1
    ⟨2026, 1, 10⟩ "c7" "c8" (fun n => toString n)
    (fun p => .ok (serverCreateSchedule "c7" (fun n => toString n) p))
    (fun _ it => .ok (serverAddItemToSchedule
      (serverCreateSchedule "c7" (fun n => toString n)
        (copyItemNewSchedulePayload ⟨2026, 1, 10⟩)) it "c8"))
    (by intro s hs; simp at hs) rfl rfl (by decide)
  exact ⟨h.2.1, h.2.2.2.2.2⟩

/-- C2: for every schedule collection, the `totalHours` computed by
`calculateStats` equals the sum over all items of `itemHours`: the
difference of `endTime` and `startTime` as same-day clock times,
measured in hours, when both are present, and exactly 0 when either is
missing. -/
theorem totalHours_sum_spec (today : Ymd) (sd : Option (List Schedule)) :
    (calculateStats today sd).totalHours = ((allItems sd).map itemHours).sum := by
  match sd with
  | none => rfl
  | some l =>
    by_cases hne : l.isEmpty
    · match l, hne with
      | [], _ => rfl
    · rw [calculateStats_totalHours today l hne]
      rw [show allItems (some l) = (l.map (fun s => s.items.getD [])).join from rfl,
        join_map_sum, scheduleHours_eq]

/-- C5 (amended): after every successful cache-modifying operation
except `copyScheduleItem`, the stats snapshot equals the stats
computation applied to the post-operation schedules collection;
`copyScheduleItem` instead recomputes stats from the pre-operation
collection (the stale `[...schedules]` closure at line 431). -/
theorem stats_recompute_amended (today : Ymd) (st : StoreState) :
    (∀ l, (fetchSchedules today st (.ok l)).1.stats
      = calculateStats today (some (fetchSchedules today st (.ok l)).1.schedules))
    ∧ (∀ input server v, (createSchedule today st input server).2 = .ok v →
        (createSchedule today st input server).1.stats
          = calculateStats today (some (createSchedule today st input server).1.schedules))
    ∧ (∀ id resp v, (updateSchedule today st id resp).2 = .ok v →
        (updateSchedule today st id resp).1.stats
          = calculateStats today (some (updateSchedule today st id resp).1.schedules))
    ∧ (∀ id resp, (deleteSchedule today st id resp).2 = .ok () →
        (deleteSchedule today st id resp).1.stats
          = calculateStats today (some (deleteSchedule today st id resp).1.schedules))
    ∧ (∀ sid resp v, (addScheduleItem today st sid resp).2 = .ok v →
        (addScheduleItem today st sid resp).1.stats
          = calculateStats today (some (addScheduleItem today st sid resp).1.schedules))
    ∧ (∀ sid iid resp v, (updateScheduleItem today st sid iid resp).2 = .ok v →
        (updateScheduleItem today st sid iid resp).1.stats
          = calculateStats today (some (updateScheduleItem today st sid iid resp).1.schedules))
    ∧ (∀ sid iid resp v, (deleteScheduleItem today st sid iid resp).2 = .ok v →
        (deleteScheduleItem today st sid iid resp).1.stats
          = calculateStats today (some (deleteScheduleItem today st sid iid resp).1.schedules))
    ∧ (∀ source targetDate dresp screate v,
        (copySchedule today st source targetDate dresp screate).2 = .ok v →
        (copySchedule today st source targetDate dresp screate).1.stats
          = calculateStats today
              (some (copySchedule today st source targetDate dresp screate).1.schedules))
    ∧ (∀ item targetDate screate sadd v,
        (copyScheduleItem today st item targetDate screate sadd).2 = .ok v →
        (copyScheduleItem today st item targetDate screate sadd).1.stats
          = calculateStats today (some st.schedules)) := by
  refine ⟨?_, ?_, ?_, ?_, ?_, ?_, ?_, ?_, ?_⟩
  · intro l; rfl
  · intro input server v h
    cases hstep : createScheduleStep input with
    | error e => simp [createSchedule, hstep] at h
    | ok p =>
      cases hs : server p with
      | error e => simp [createSchedule, hstep, hs] at h
      | ok new => simp [createSchedule, hstep, hs]
  · intro id resp v h
    by_cases hid : id = ""
    · simp [updateSchedule, hid] at h
    · cases resp with
      | error e => simp [updateSchedule, hid] at h
      | ok u => simp [updateSchedule, hid]
  · intro id resp h
    by_cases hid : id = ""
    · simp [deleteSchedule, hid] at h
    · cases resp with
      | error e => simp [deleteSchedule, hid] at h
      | ok u => simp [deleteSchedule, hid]
  · intro sid resp v h
    by_cases hid : sid = ""
    · simp [addScheduleItem, hid] at h
    · cases resp with
      | error e => simp [addScheduleItem, itemOpReconcile, hid] at h
      | ok u => simp [addScheduleItem, itemOpReconcile, hid]
  · intro sid iid resp v h
    by_cases hid : sid = "" ∨ iid = ""
    · simp [updateScheduleItem, hid] at h
    · cases resp with
      | error e => simp [updateScheduleItem, itemOpReconcile, hid] at h
      | ok u => simp [updateScheduleItem, itemOpReconcile, hid]
  · intro sid iid resp v h
    by_cases hid : sid = "" ∨ iid = ""
    · simp [deleteScheduleItem, hid] at h
    · cases resp with
      | error e => simp [deleteScheduleItem, itemOpReconcile, hid] at h
      | ok u => simp [deleteScheduleItem, itemOpReconcile, hid]
  · intro source targetDate dresp screate v h
    cases hf : st.schedules.find? (fun s => s.date = targetDate) with
    | none =>
      cases hsi : source.items with
      | none => simp [copySchedule, hf, hsi] at h
      | some its =>
        cases hsc : screate (copySchedulePayload its targetDate) with
        | error e => simp [copySchedule, hf, hsi, hsc] at h
        | ok new => simp [copySchedule, hf, hsi, hsc]
    | some ex =>
      cases dresp with
      | error e => simp [copySchedule, hf] at h
      | ok u =>
        cases hsi : source.items with
        | none => simp [copySchedule, hf, hsi] at h
        | some its =>
          cases hsc : screate (copySchedulePayload its targetDate) with
          | error e => simp [copySchedule, hf, hsi, hsc] at h
          | ok new => simp [copySchedule, hf, hsi, hsc]
  · intro item targetDate screate sadd v h
    cases hf : st.schedules.find? (fun s => s.date = targetDate) with
    | some ts =>
      cases hsa : sadd ts.sid (itemCopyOf item) with
      | error e => simp [copyScheduleItem, hf, hsa] at h
      | ok u => simp [copyScheduleItem, hf, hsa]
    | none =>
      cases hsc : screate (copyItemNewSchedulePayload targetDate) with
      | error e => simp [copyScheduleItem, hf, hsc] at h
      | ok ts =>
        cases hsa : sadd ts.sid (itemCopyOf item) with
        | error e => simp [copyScheduleItem, hf, hsc, hsa] at h
        | ok u => simp [copyScheduleItem, hf, hsc, hsa]

/-- Witness for C5 (amended): a concrete successful `createSchedule` has
its stats recomputed from the post-operation collection, and a concrete
successful `copyScheduleItem` recomputes from the pre-operation one. -/
theorem stats_recompute_amended_witness :
    (createSchedule ⟨2026, 1, 5⟩ ⟨[], defaultStats⟩
        ⟨some ⟨2026, 1, 5⟩, "Weekday", "Planned", some [witItem1]⟩
        (fun p => .ok (serverCreateSchedule "w5" (fun n => toString n) p))).1.stats
      = calculateStats ⟨2026, 1, 5⟩
          (some (createSchedule ⟨2026, 1, 5⟩ ⟨[], defaultStats⟩
            ⟨some ⟨2026, 1, 5⟩, "Weekday", "Planned", some [witItem1]⟩
            (fun p => .ok (serverCreateSchedule "w5" (fun n => toString n) p))).1.schedules)
    ∧ (copyScheduleItem ⟨2026, 1, 6⟩ ⟨[witEmptySchedule], defaultStats⟩ witItem1 ⟨2026, 1, 6⟩
        (fun _ => .error "unused")
        (fun _ it => .ok (serverAddItemToSchedule witEmptySchedule it "z9"))).1.stats
      = calculateStats ⟨2026, 1, 6⟩ (some [witEmptySchedule]) := by
  constructor
  · exact (stats_recompute_amended ⟨2026, 1, 5⟩ ⟨[], defaultStats⟩).2.1
      ⟨some ⟨2026, 1, 5⟩, "Weekday", "Planned", some [witItem1]⟩
      (fun p => .ok (serverCreateSchedule "w5" (fun n => toString n) p))
      (serverCreateSchedule "w5" (fun n => toString n)
        { date := ⟨2026, 1, 5⟩, dateWire := jsToISOTimestamp ⟨2026, 1, 5⟩,
          dayType := "Weekday", status := "Planned", items := [witItem1] })
      rfl
  · exact (stats_recompute_amended ⟨2026, 1, 6⟩ ⟨[witEmptySchedule], defaultStats⟩).2.2.2.2.2.2.2.2
      witItem1 ⟨2026, 1, 6⟩ (fun _ => .error "unused")
      (fun _ it => .ok (serverAddItemToSchedule witEmptySchedule it "z9"))
      (serverAddItemToSchedule witEmptySchedule (itemCopyOf witItem1) "z9")
      rfl

/-- Counterexample to C5 as stated: a successful `copyScheduleItem` whose
stats snapshot differs from the stats computation applied to the
post-operation schedules collection. -/
theorem copyScheduleItem_stats_stale_cex :
    (copyScheduleItem ⟨2026, 1, 6⟩ ⟨[witEmptySchedule], defaultStats⟩ witItem1 ⟨2026, 1, 6⟩
        (fun _ => .error "unused")
        (fun _ it => .ok (serverAddItemToSchedule witEmptySchedule it "z9"))).2
      = .ok (serverAddItemToSchedule witEmptySchedule (itemCopyOf witItem1) "z9")
    ∧ (copyScheduleItem ⟨2026, 1, 6⟩ ⟨[witEmptySchedule], defaultStats⟩ witItem1 ⟨2026, 1, 6⟩
        (fun _ => .error "unused")
        (fun _ it => .ok (serverAddItemToSchedule witEmptySchedule it "z9"))).1.stats
      ≠ calculateStats ⟨2026, 1, 6⟩
          (some (copyScheduleItem ⟨2026, 1, 6⟩ ⟨[witEmptySchedule], defaultStats⟩ witItem1
            ⟨2026, 1, 6⟩ (fun _ => .error "unused")
            (fun _ it => .ok (serverAddItemToSchedule witEmptySchedule it "z9"))).1.schedules) := by
  refine ⟨rfl, ?_⟩
  intro h
  have := congrArg Stats.totalTasks h
  revert this
  decide

/-- C6 (amended): a failed mutation leaves the cache exactly as it was,
with three exceptions: the initial fetch resets it to empty;
`copySchedule`'s intermediate deletion is not rolled back; and
`copyScheduleItem`'s intermediate schedule creation is not rolled back
when the subsequent item request fails. -/
theorem failure_atomicity_amended (today : Ymd) (st : StoreState) :
    (∀ e, (fetchSchedules today st (.error e)).1.schedules = [])
    ∧ (∀ input server e, (createSchedule today st input server).2 = .error e →
        (createSchedule today st input server).1 = st)
    ∧ (∀ id resp e, (updateSchedule today st id resp).2 = .error e →
        (updateSchedule today st id resp).1 = st)
    ∧ (∀ id resp e, (deleteSchedule today st id resp).2 = .error e →
        (deleteSchedule today st id resp).1 = st)
    ∧ (∀ sid resp e, (addScheduleItem today st sid resp).2 = .error e →
        (addScheduleItem today st sid resp).1 = st)
    ∧ (∀ sid iid resp e, (updateScheduleItem today st sid iid resp).2 = .error e →
        (updateScheduleItem today st sid iid resp).1 = st)
    ∧ (∀ sid iid resp e, (deleteScheduleItem today st sid iid resp).2 = .error e →
        (deleteScheduleItem today st sid iid resp).1 = st)
    ∧ (∀ source targetDate dresp screate e,
        (copySchedule today st source targetDate dresp screate).2 = .error e →
        (copySchedule today st source targetDate dresp screate).1.schedules = st.schedules
        ∨ ∃ ex, st.schedules.find? (fun s => s.date = targetDate) = some ex
            ∧ (copySchedule today st source targetDate dresp screate).1.schedules
              = st.schedules.filter (fun s => s.sid ≠ ex.sid))
    ∧ (∀ item targetDate screate sadd e,
        (copyScheduleItem today st item targetDate screate sadd).2 = .error e →
        (copyScheduleItem today st item targetDate screate sadd).1.schedules = st.schedules
        ∨ ∃ created, screate (copyItemNewSchedulePayload targetDate) = .ok created
            ∧ (copyScheduleItem today st item targetDate screate sadd).1.schedules
              = st.schedules ++ [created]) := by
  refine ⟨?_, ?_, ?_, ?_, ?_, ?_, ?_, ?_, ?_⟩
  · intro e; rfl
  · intro input server e h
    cases hstep : createScheduleStep input with
    | error e2 => simp [createSchedule, hstep]
    | ok p =>
      cases hs : server p with
      | error e2 => simp [createSchedule, hstep, hs]
      | ok new => simp [createSchedule, hstep, hs] at h
  · intro id resp e h
    by_cases hid : id = ""
    · simp [updateSchedule, hid]
    · cases resp with
      | error e2 => simp [updateSchedule, hid]
      | ok u => simp [updateSchedule, hid] at h
  · intro id resp e h
    by_cases hid : id = ""
    · simp [deleteSchedule, hid]
    · cases resp with
      | error e2 => simp [deleteSchedule, hid]
      | ok u => simp [deleteSchedule, hid] at h
  · intro sid resp e h
    by_cases hid : sid = ""
    · simp [addScheduleItem, hid]
    · cases resp with
      | error e2 => simp [addScheduleItem, itemOpReconcile, hid]
      | ok u => simp [addScheduleItem, itemOpReconcile, hid] at h
  · intro sid iid resp e h
    by_cases hid : sid = "" ∨ iid = ""
    · simp [updateScheduleItem, hid]
    · cases resp with
      | error e2 => simp [updateScheduleItem, itemOpReconcile, hid]
      | ok u => simp [updateScheduleItem, itemOpReconcile, hid] at h
  · intro sid iid resp e h
    by_cases hid : sid = "" ∨ iid = ""
    · simp [deleteScheduleItem, hid]
    · cases resp with
      | error e2 => simp [deleteScheduleItem, itemOpReconcile, hid]
      | ok u => simp [deleteScheduleItem, itemOpReconcile, hid] at h
  · intro source targetDate dresp screate e h
    cases hf : st.schedules.find? (fun s => s.date = targetDate) with
    | none =>
      left
      cases hsi : source.items with
      | none => simp [copySchedule, hf, hsi]
      | some its =>
        cases hsc : screate (copySchedulePayload its targetDate) with
        | error e2 => simp [copySchedule, hf, hsi, hsc]
        | ok new => simp [copySchedule, hf, hsi, hsc] at h
    | some ex =>
      cases dresp with
      | error e2 => left; simp [copySchedule, hf]
      | ok u =>
        right
        refine ⟨ex, rfl, ?_⟩
        cases hsi : source.items with
        | none => simp [copySchedule, hf, hsi]
        | some its =>
          cases hsc : screate (copySchedulePayload its targetDate) with
          | error e2 => simp [copySchedule, hf, hsi, hsc]
          | ok new => simp [copySchedule, hf, hsi, hsc] at h
  · intro item targetDate screate sadd e h
    cases hf : st.schedules.find? (fun s => s.date = targetDate) with
    | some ts =>
      left
      cases hsa : sadd ts.sid (itemCopyOf item) with
      | error e2 => simp [copyScheduleItem, hf, hsa]
      | ok u => simp [copyScheduleItem, hf, hsa] at h
    | none =>
      cases hsc : screate (copyItemNewSchedulePayload targetDate) with
      | error e2 => left; simp [copyScheduleItem, hf, hsc]
      | ok ts =>
        right
        refine ⟨ts, rfl, ?_⟩
        cases hsa : sadd ts.sid (itemCopyOf item) with
        | error e2 => simp [copyScheduleItem, hf, hsc, hsa]
        | ok u => simp [copyScheduleItem, hf, hsc, hsa] at h

/-- Witness for C6 (amended): a failed `updateSchedule` leaves a concrete
state untouched, and a failed `copyScheduleItem` whose creation
succeeded leaves the created schedule behind. -/
theorem failure_atomicity_amended_witness :
    (updateSchedule ⟨2026, 1, 5⟩ ⟨[witSchedule], defaultStats⟩ "a"
        (.error "Network Error")).1 = ⟨[witSchedule], defaultStats⟩
    ∧ ((copyScheduleItem ⟨2026, 1, 5⟩ ⟨[], defaultStats⟩ witItem1 ⟨2026, 1, 10⟩
          (fun p => .ok (serverCreateSchedule "c7" (fun n => toString n) p))
          (fun _ _ => .error "Network Error")).1.schedules = ([] : List Schedule)
        ∨ ∃ created,
            (Except.ok (serverCreateSchedule "c7" (fun n => toString n)
                (copyItemNewSchedulePayload ⟨2026, 1, 10⟩)) : Except String Schedule)
              = Except.ok created
            ∧ (copyScheduleItem ⟨2026, 1, 5⟩ ⟨[], defaultStats⟩ witItem1 ⟨2026, 1, 10⟩
                (fun p => .ok (serverCreateSchedule "c7" (fun n => toString n) p))
                (fun _ _ => .error "Network Error")).1.schedules = [] ++ [created]) := by
  constructor
  · exact (failure_atomicity_amended ⟨2026, 1, 5⟩ ⟨[witSchedule], defaultStats⟩).2.2.1
      "a" (.error "Network Error") "Network Error" rfl
  · exact (failure_atomicity_amended ⟨2026, 1, 5⟩ ⟨[], defaultStats⟩).2.2.2.2.2.2.2.2
      witItem1 ⟨2026, 1, 10⟩
      (fun p => .ok (serverCreateSchedule "c7" (fun n => toString n) p))
      (fun _ _ => .error "Network Error") "Network Error" rfl

/-- Counterexample to C6 as stated: a failed `copyScheduleItem` (the item
request fails after the schedule creation succeeded) leaves the cache
different from the pre-call cache. -/
theorem copyScheduleItem_partial_update_cex :
    (copyScheduleItem ⟨2026, 1, 5⟩ ⟨[], defaultStats⟩ witItem1 ⟨2026, 1, 10⟩
        (fun p => .ok (serverCreateSchedule "c7" (fun n => toString n) p))
        (fun _ _ => .error "Network Error")).2 = .error "Network Error"
    ∧ (copyScheduleItem ⟨2026, 1, 5⟩ ⟨[], defaultStats⟩ witItem1 ⟨2026, 1, 10⟩
        (fun p => .ok (serverCreateSchedule "c7" (fun n => toString n) p))
        (fun _ _ => .error "Network Error")).1.schedules ≠ ([] : List Schedule) := by
  exact ⟨rfl, by decide⟩

/-- The per-schedule category step skips a schedule whose `items` field
is absent. -/
theorem catSchedStep_none (acc : List (String × Nat)) (s : Schedule)
    (hs : s.items = none) : catSchedStep acc s = acc := by
  simp [catSchedStep, hs]

/-- The category distribution skips a schedule whose `items` field is
absent. -/
theorem categoriesDist_middle_none (l1 l2 : List Schedule) (s : Schedule)
    (hs : s.items = none) :
    categoriesDist (l1 ++ s :: l2) = categoriesDist (l1 ++ l2) := by
  show (l1 ++ s :: l2).foldl catSchedStep [] = (l1 ++ l2).foldl catSchedStep []
  rw [List.foldl_append, List.foldl_append, List.foldl_cons, catSchedStep_none _ s hs]

/-- The middle-schedule normal form of `statsOf` when the middle
schedule's `items` field is absent. -/
theorem statsOf_middle_none (today : Ymd) (l1 l2 : List Schedule) (s : Schedule)
    (hs : s.items = none) :
    statsOf today (l1 ++ s :: l2) = statsOf today (l1 ++ l2) := by
  have h0 : itemsLen s = 0 := by simp [itemsLen, hs]
  have hc0 : completedLen s = 0 := by simp [completedLen, hs]
  have hh0 : highPriorityLen s = 0 := by simp [highPriorityLen, hs]
  have hq0 : scheduleHours s = 0 := by simp [scheduleHours, hs]
  have hA : ((l1 ++ s :: l2).map itemsLen).sum = ((l1 ++ l2).map itemsLen).sum := by
    simp [h0]
  have hB : ((l1 ++ s :: l2).map completedLen).sum = ((l1 ++ l2).map completedLen).sum := by
    simp [hc0]
  have hcat := categoriesDist_middle_none l1 l2 s hs
  simp only [statsOf, Stats.mk.injEq]
  refine ⟨?_, ?_, ?_, ?_, trivial, trivial, trivial, trivial, hA, trivial, ?_, ?_⟩
  · by_cases hps : s.date = today <;>
      simp [List.filter_append, List.filter_cons, hps, h0]
  · rw [hA, hB]
  · simp [hq0]
  · simp [hh0]
  · rw [hcat]
  · rw [hcat]

/-- The per-item category step skips an item with a falsy category. -/
theorem catStep_falsy (a : List (String × Nat)) (it : ScheduleItem)
    (hfalsy : it.category = none ∨ it.category = some "") : catStep a it = a := by
  rcases hfalsy with h | h <;> simp [catStep, h]

/-- Folding the items with a falsy-category item removed gives the same
distribution. -/
theorem categoriesDist_inner_skip (its1 its2 : List ScheduleItem) (it : ScheduleItem)
    (hfalsy : it.category = none ∨ it.category = some "")
    (acc : List (String × Nat)) :
    (its1 ++ it :: its2).foldl catStep acc = (its1 ++ its2).foldl catStep acc := by
  rw [List.foldl_append, List.foldl_append, List.foldl_cons,
    catStep_falsy _ it hfalsy]

/-- The category distribution skips an item with a falsy category. -/
theorem categoriesDist_middle_falsy (l1 l2 : List Schedule) (s : Schedule)
    (its1 its2 : List ScheduleItem) (it : ScheduleItem)
    (hs : s.items = some (its1 ++ it :: its2))
    (hfalsy : it.category = none ∨ it.category = some "") :
    categoriesDist (l1 ++ s :: l2)
      = categoriesDist (l1 ++ { s with items := some (its1 ++ its2) } :: l2) := by
  show (l1 ++ s :: l2).foldl catSchedStep []
      = (l1 ++ { s with items := some (its1 ++ its2) } :: l2).foldl catSchedStep []
  rw [List.foldl_append, List.foldl_append, List.foldl_cons, List.foldl_cons]
  have hstep : ∀ b, catSchedStep b s
      = catSchedStep b { s with items := some (its1 ++ its2) } := by
    intro b
    simp only [catSchedStep, hs]
    exact categoriesDist_inner_skip its1 its2 it hfalsy b
  rw [hstep]

/-- The distribution built from a collection in which every item has a
falsy category is empty. -/
theorem categoriesDist_nil_of_falsy (l : List Schedule)
    (h : ∀ s ∈ l, ∀ it ∈ s.items.getD [], it.category = none ∨ it.category = some "") :
    categoriesDist l = [] := by
  have hinner : ∀ (its : List ScheduleItem),
      (∀ it ∈ its, it.category = none ∨ it.category = some "") →
      ∀ acc : List (String × Nat), its.foldl catStep acc = acc := by
    intro its
    induction its with
    | nil => intro _ acc; rfl
    | cons it rest ih =>
        intro hall acc
        have hfalsy := hall it (List.mem_cons_self it rest)
        have hrest : ∀ x ∈ rest, x.category = none ∨ x.category = some "" := by
          intro x hx
          exact hall x (List.mem_cons_of_mem it hx)
        rw [List.foldl_cons, catStep_falsy acc it hfalsy, ih hrest]
  have houter : ∀ (m : List Schedule),
      (∀ s ∈ m, ∀ it ∈ s.items.getD [], it.category = none ∨ it.category = some "") →
      ∀ acc : List (String × Nat), m.foldl catSchedStep acc = acc := by
    intro m
    induction m with
    | nil => intro _ acc; rfl
    | cons s rest ih =>
        intro hall acc
        have hrest : ∀ x ∈ rest, ∀ it ∈ x.items.getD [],
            it.category = none ∨ it.category = some "" := by
          intro x hx
          exact hall x (List.mem_cons_of_mem s hx)
        have hthis := hall s (List.mem_cons_self s rest)
        have hstep : catSchedStep acc s = acc := by
          cases hsi : s.items with
          | none => simp [catSchedStep, hsi]
          | some its =>
              simp only [catSchedStep, hsi]
              refine hinner its ?_ acc
              intro it hit
              exact hthis it (by simpa [hsi] using hit)
        rw [List.foldl_cons, hstep, ih hrest]
  exact houter l h []

/-- C10: `calculateStats` is total over well-formed inputs and ignores
absent optional fields: a schedule with no `items` field contributes
nothing to any aggregate (the whole snapshot is unchanged when it is
removed); an item whose `category` is absent (or empty) is excluded
from the category distribution and from `categoryCount`; and when no
item has a truthy category, `topCategory` is the empty string. -/
theorem calculateStats_total_spec (today : Ymd) :
    (∀ l1 l2 s, s.items = none →
      calculateStats today (some (l1 ++ s :: l2))
        = calculateStats today (some (l1 ++ l2)))
    ∧ (∀ l1 l2 s its1 its2 it, s.items = some (its1 ++ it :: its2) →
        (it.category = none ∨ it.category = some "") →
        categoriesDist (l1 ++ s :: l2)
          = categoriesDist (l1 ++ { s with items := some (its1 ++ its2) } :: l2)
        ∧ (calculateStats today (some (l1 ++ s :: l2))).categoryCount
          = (calculateStats today
              (some (l1 ++ { s with items := some (its1 ++ its2) } :: l2))).categoryCount
        ∧ (calculateStats today (some (l1 ++ s :: l2))).topCategory
          = (calculateStats today
              (some (l1 ++ { s with items := some (its1 ++ its2) } :: l2))).topCategory)
    ∧ (∀ l, (∀ s ∈ l, ∀ it ∈ s.items.getD [],
          it.category = none ∨ it.category = some "") →
        (calculateStats today (some l)).topCategory = "") := by
  refine ⟨?_, ?_, ?_⟩
  · intro l1 l2 s hs
    rw [calculateStats_some, calculateStats_some]
    exact statsOf_middle_none today l1 l2 s hs
  · intro l1 l2 s its1 its2 it hs hfalsy
    have hcat := categoriesDist_middle_falsy l1 l2 s its1 its2 it hs hfalsy
    refine ⟨hcat, ?_, ?_⟩ <;>
      simp [calculateStats_some, statsOf, hcat]
  · intro l hall
    rw [calculateStats_some]
    simp [statsOf, categoriesDist_nil_of_falsy l hall, topEntry]

/-- Witness for C10: removing an items-less schedule from a concrete
collection leaves the snapshot unchanged, and an all-falsy-category
collection has an empty top category. -/
theorem calculateStats_total_spec_witness :
    calculateStats ⟨2026, 1, 5⟩
        (some ([witSchedule]
          ++ ({ sid := "n", date := ⟨2026, 1, 7⟩, dayType := "Weekday",
                status := "Planned", items := none } : Schedule) :: []))
      = calculateStats ⟨2026, 1, 5⟩ (some ([witSchedule] ++ []))
    ∧ (calculateStats ⟨2026, 1, 5⟩ (some [witEmptySchedule])).topCategory = "" := by
  constructor
  · exact (calculateStats_total_spec ⟨2026, 1, 5⟩).1 [witSchedule] []
      { sid := "n", date := ⟨2026, 1, 7⟩, dayType := "Weekday",
        status := "Planned", items := none } rfl
  · exact (calculateStats_total_spec ⟨2026, 1, 5⟩).2.2 [witEmptySchedule]
      (by intro s hs it hit; simp [witEmptySchedule] at hs hit ⊢; simp [hs] at hit)

end HustleX
